import Mathlib

/-!
# udptunnel server (`udpserver.c`): dispatcher and event loop

A shallow embedding of `handle_message`, `disconnect_and_remove_client` and the
body of the `while(running)` loop of `main`.

The client module (`client.h`), the list container (`list.h`), the message
constants (`message.h`) and the socket layer (`socket.h`) are not part of the
translated source file.  The client operations and the resolver are taken as
parameters (`Env`); the container is modelled from the specification's
description of the client table.  Every call into the client module is recorded
in a call log, so that "sends nothing" and "calls X" are statements about the log.
-/

namespace UdpTunnel

/-! ## Descriptor sets -/

/-- The `fd_set` of `select(2)`: the descriptors that are set. -/
abbrev fd_set := List Nat

/-- The macro `FD_ISSET(fd, set)`. -/
def FD_ISSET (fd : Nat) (set : fd_set) : Bool := decide (fd ∈ set)

/-- The macro `FD_SET(fd, set)`. -/
def FD_SET (fd : Nat) (set : fd_set) : fd_set := if fd ∈ set then set else set ++ [fd]

/-- The macro `FD_CLR(fd, set)`. -/
def FD_CLR (fd : Nat) (set : fd_set) : fd_set := set.filter (fun x => x ≠ fd)

/-! ## Frames, sockets, clients -/

/-- The `uint8_t msg_type` of a frame, classified by the `MSG_TYPE_*` constants of
`message.h` (their numeric values are not in the translated source; the `switch`
of `handle_message` only distinguishes these cases and `default`). -/
inductive msg_type
  | GOODBYE
  | HELLO
  | HELLOACK
  | KEEPALIVE
  | DATA0
  | DATA1
  | ACK0
  | ACK1
  | unknown (code : Nat)
  deriving DecidableEq, Repr

/-- A `socket_t` as far as the server looks at it: the descriptor `SOCK_FD` and the
resolved address. -/
structure socket_t where
  fd : Nat
  addr : Nat
  deriving DecidableEq, Repr

/-- The part of a client that the operations of the client module may change: the
descriptor of its TCP socket and the protocol state (sequence bits, pending frame,
buffers, `got_helloack`), the latter left uninterpreted. -/
structure client_state where
  tcp_fd : Nat
  proto : Nat
  deriving DecidableEq, Repr

/-- Modelled from the spec: `client_t` of `client.h` is missing from the source. A
client has a 16-bit `id` assigned at HELLO time (`CLIENT_ID`), the UDP address its
HELLO came from, and its mutable state. -/
structure client_t where
  id : Nat
  udp_peer : Nat
  st : client_state
  deriving DecidableEq, Repr

/-- One call from `udpserver.c` into the client module or the resolver, with the
arguments it was made with. -/
inductive Call
  | sock_create (host port : List Nat)
  | client_create (id : Nat) (tcp_sock : socket_t) (udp_from : Nat)
  | client_send_helloack (c : client_t)
  | client_got_helloack (c : client_t)
  | client_connect_tcp (c : client_t)
  | client_got_udp_data (c : client_t) (data : List Nat) (ty : msg_type)
  | client_send_tcp_data (c : client_t)
  | client_got_ack (c : client_t) (ty : msg_type)
  | client_check_and_resend (c : client_t)
  | client_recv_tcp_data (c : client_t)
  | client_send_udp_data (c : client_t)
  | client_disconnect_tcp (c : client_t)
  | usleep
  deriving DecidableEq, Repr

/-- The external collaborators of `udpserver.c`, as functions. An operation on a
client receives the client and returns its new mutable state and, where the
server reads it, the `int` result. -/
structure Env where
  /-- The resolver `sock_create(host, port, ipver, SOCK_TYPE_TCP, 0, 0)`; `none` is NULL. -/
  sock_create : List Nat → List Nat → Option socket_t
  /-- The initial state `client_create(id, tcp_sock, from, 0)` gives; `none` is NULL. -/
  client_create : Nat → socket_t → Nat → Option client_state
  /-- Whether `list_add` can allocate. -/
  list_add_ok : List client_t → client_t → Bool
  client_send_helloack : client_t → client_state
  client_got_helloack : client_t → client_state
  client_connect_tcp : client_t → client_state × Int
  client_got_udp_data : client_t → List Nat → msg_type → client_state × Int
  client_send_tcp_data : client_t → client_state × Int
  client_got_ack : client_t → msg_type → client_state
  client_check_and_resend : client_t → client_state × Int
  client_recv_tcp_data : client_t → client_state × Int
  client_send_udp_data : client_t → client_state × Int

/-- The server's state: the list `clients`, the persistent set `client_fds`, the
static `next_client_id`, and the log of calls made so far. -/
structure Server where
  clients : List client_t
  client_fds : fd_set
  next_client_id : Nat
  log : List Call
  deriving DecidableEq, Repr

/-- The state after start-up: `list_create`, `FD_ZERO(&client_fds)`,
`static int next_client_id = 1`. -/
def Server.init : Server := ⟨[], [], 1, []⟩

/-- Why an execution of the model stops without a result. -/
inductive Stop
  /-- A write to `port[idx]` outside `char port[6]`. -/
  | port_overflow (idx : Nat)
  /-- A client operation applied to a NULL client. -/
  | null_client
  /-- The loop did not finish within the given number of iterations. -/
  | out_of_fuel
  deriving DecidableEq, Repr

/-! ## The client table -/

/-- Modelled from the spec: `list_get` of `list.h` is missing from the source; it is
`lookup_by_id`, the first client of the table with this id. -/
def list_get (clients : List client_t) (id : Nat) : Option client_t :=
  clients.find? (fun c => c.id == id)

/-- Modelled from the spec: `list_get_at` of `list.h` is missing from the source; the
client at position `i` in iteration order. -/
def list_get_at (clients : List client_t) (i : Nat) : Option client_t :=
  clients.get? i

/-- Modelled from the spec: `list_delete` of `list.h` is missing from the source; it is
`remove_by_id`, removing the client that `list_get` finds and keeping the order of
the others. -/
def list_delete (clients : List client_t) (id : Nat) : List client_t :=
  clients.eraseP (fun c => c.id == id)

/-- Modelled from the spec: `list_add` of `list.h` is missing from the source; it is
`insert`, which puts a copy of the client last in iteration order and returns it,
or NULL when it cannot allocate. The copy is the last element of the new list. -/
def list_add (E : Env) (clients : List client_t) (c : client_t) :
    Option (List client_t × client_t) :=
  if E.list_add_ok clients c then some (clients ++ [c], c) else none

/-- A write through the pointer that `list_get(clients, &id)` returned: the first
client with this id gets the new state. -/
def list_store : List client_t → Nat → client_state → List client_t
  | [], _, _ => []
  | c :: cs, id, st =>
    if c.id == id then { c with st := st } :: cs else c :: list_store cs id st

/-- Modelled from the spec: `client_create` of `client.h` is missing from the source; the
new client carries the id and the peer address it is given. -/
def client_create (E : Env) (id : Nat) (tcp_sock : socket_t) (udp_from : Nat) :
    Option client_t :=
  (E.client_create id tcp_sock udp_from).map (fun st => ⟨id, udp_from, st⟩)

/-- Modelled from the spec: `client_add_tcp_fd_to_set` adds the client's TCP descriptor
to the set. -/
def client_add_tcp_fd_to_set (c : client_t) (fds : fd_set) : fd_set :=
  FD_SET c.st.tcp_fd fds

/-- Modelled from the spec: `client_remove_tcp_fd_from_set` takes the client's TCP
descriptor out of the set. -/
def client_remove_tcp_fd_from_set (c : client_t) (fds : fd_set) : fd_set :=
  FD_CLR c.st.tcp_fd fds

/-- Modelled from the spec: `client_tcp_fd_isset` tests the client's TCP descriptor
in the set. -/
def client_tcp_fd_isset (c : client_t) (fds : fd_set) : Bool :=
  FD_ISSET c.st.tcp_fd fds

/-! ## Parsing the HELLO payload (lines 287-303) -/

/-- The loop `for(i = 0; i < data_len; i++) if(data[i] == ' ') break;`: the index of
the first space, or `data_len` when there is none. -/
def find_space : List Nat → Nat
  | [] => 0
  | b :: bs => if b = 32 then 0 else find_space bs + 1

/-- The string a `char *` denotes: the bytes before the first NUL. -/
def c_str (buf : List Nat) : List Nat := buf.takeWhile (fun b => b ≠ 0)

/-- The bytes `strncpy(dst, src, n)` writes to `dst[0..n-1]`: the string at `src`, cut
at `n` bytes, padded with NULs to `n` bytes. -/
def strncpy (src : List Nat) (n : Nat) : List Nat :=
  c_str (src.take n) ++ List.replicate (n - (c_str (src.take n)).length) 0

/-- The indices of `port` written by `strncpy(port, data+i, n); port[n] = 0;`. -/
def port_writes (n : Nat) : List Nat := List.range n ++ [n]

/-- The size of `char port[6]`. -/
def PORT_SIZE : Nat := 6

/-- What the HELLO case does before it calls the resolver. -/
inductive hello_parse_result
  /-- The case `i == data_len`: break. -/
  | no_space
  /-- The first write outside `port`, at this index. -/
  | overflow (idx : Nat)
  /-- The strings `data` and `port` passed to `sock_create`. -/
  | parsed (host port : List Nat)
  deriving DecidableEq, Repr

/-- Lines 294-303: find the space, terminate the host in place, copy the rest of the
payload into the 6-byte `port` and terminate it. -/
def hello_parse (data : List Nat) : hello_parse_result :=
  let data_len := data.length
  let i := find_space data
  if i = data_len then .no_space
  else
    let data1 := data.set i 0
    let i1 := i + 1
    let n := data_len - i1
    match (port_writes n).find? (fun idx => decide (PORT_SIZE ≤ idx)) with
    | some idx => .overflow idx
    | none => .parsed (c_str data1) (c_str (strncpy (data1.drop i1) n ++ [0]))

/-! ## `disconnect_and_remove_client` and `handle_message` -/

/-- The function `disconnect_and_remove_client(id, clients, fds)`. -/
def disconnect_and_remove_client (id : Nat) (s : Server) : Server :=
  if id = 0 then s
  else
    match list_get s.clients id with
    | none => s
    | some c =>
      { s with
        client_fds := client_remove_tcp_fd_from_set c s.client_fds
        log := s.log ++ [Call.client_disconnect_tcp c]
        clients := list_delete s.clients id }

/-- The HELLO case of `handle_message` for `id == 0` (lines 294-320). The `uint16_t id`
parameter of `client_create` receives `next_client_id` truncated to 16 bits. -/
def handle_hello (E : Env) (data : List Nat) (udp_from : Nat) (s : Server) :
    Except Stop (Int × Server) :=
  match hello_parse data with
  | .no_space => .ok (0, s)
  | .overflow idx => .error (.port_overflow idx)
  | .parsed host port =>
    let s1 := { s with log := s.log ++ [Call.sock_create host port] }
    match E.sock_create host port with
    | none => .ok (-1, s1)
    | some tcp_sock =>
      let id := s.next_client_id % 65536
      let s2 := { s1 with log := s1.log ++ [Call.client_create id tcp_sock udp_from] }
      match client_create E id tcp_sock udp_from with
      | none => .ok (-1, s2)
      | some c =>
        let s3 := { s2 with next_client_id := s2.next_client_id + 1 }
        match list_add E s3.clients c with
        | none => .ok (-1, s3)
        | some (clients, c2) =>
          .ok (0, { s3 with
            clients := clients.set (clients.length - 1) { c2 with st := E.client_send_helloack c2 }
            log := s3.log ++ [Call.client_send_helloack c2] })

/-- The function `handle_message(id, msg_type, data, data_len, from, clients, client_fds)`;
`data` holds the `data_len` payload bytes. The result is the `int` returned and the
state left behind. -/
def handle_message (E : Env) (id : Nat) (ty : msg_type) (data : List Nat) (udp_from : Nat)
    (s : Server) : Except Stop (Int × Server) :=
  let c := if id ≠ 0 then list_get s.clients id else none
  if id ≠ 0 ∧ c = none then .ok (-1, s)
  else if id = 0 ∧ ty ≠ msg_type.HELLO then .ok (-2, s)
  else
    match ty with
    | .GOODBYE => .ok (-2, s)
    | .HELLO => if id ≠ 0 then .ok (0, s) else handle_hello E data udp_from s
    | .HELLOACK =>
      match c with
      | none => .error .null_client
      | some c =>
        let c1 := { c with st := E.client_got_helloack c }
        let r := E.client_connect_tcp c1
        let c2 := { c1 with st := r.1 }
        .ok (0, { s with
          clients := list_store s.clients id c2.st
          client_fds := client_add_tcp_fd_to_set c2 s.client_fds
          log := s.log ++ [Call.client_got_helloack c, Call.client_connect_tcp c1] })
    | .KEEPALIVE => .ok (0, s)
    | .DATA0 | .DATA1 =>
      match c with
      | none => .error .null_client
      | some c =>
        let r := E.client_got_udp_data c data ty
        let c1 := { c with st := r.1 }
        if r.2 = 0 then
          let r2 := E.client_send_tcp_data c1
          .ok (r2.2, { s with
            clients := list_store s.clients id r2.1
            log := s.log ++ [Call.client_got_udp_data c data ty, Call.client_send_tcp_data c1] })
        else
          .ok (r.2, { s with
            clients := list_store s.clients id r.1
            log := s.log ++ [Call.client_got_udp_data c data ty] })
    | .ACK0 | .ACK1 =>
      match c with
      | none => .error .null_client
      | some c =>
        .ok (0, { s with
          clients := list_store s.clients id (E.client_got_ack c ty)
          log := s.log ++ [Call.client_got_ack c ty] })
    | .unknown _ => .ok (-1, s)

/-- Lines 181-185 of `main`: the frame that `msg_recv_msg` delivered (`recv_ret == 0`)
is handled, and a result of -2, from either call, removes the client `tmp_id`. -/
def dispatch (E : Env) (recv_ret : Int) (tmp_id : Nat) (tmp_type : msg_type)
    (data : List Nat) (udp_from : Nat) (s : Server) : Except Stop Server :=
  if recv_ret = 0 then
    match handle_message E tmp_id tmp_type data udp_from s with
    | .error e => .error e
    | .ok (ret, s1) =>
      if ret = -2 then .ok (disconnect_and_remove_client tmp_id s1) else .ok s1
  else if recv_ret = -2 then .ok (disconnect_and_remove_client tmp_id s)
  else .ok s

/-! ## The loops of `main` -/

/-- The timer sweep, lines 155-166: `sweep_loop E fuel i s` runs the `for` loop from
index `i`, spending one unit of fuel on each evaluation of the loop test. After a
removal `i--` and the loop's `i++` leave `i` as it was. -/
def sweep_loop (E : Env) : Nat → Nat → Server → Except Stop Server
  | 0, _, _ => .error .out_of_fuel
  | fuel + 1, i, s =>
    if i < s.clients.length then
      match list_get_at s.clients i with
      | none => .error .null_client
      | some client =>
        let r := E.client_check_and_resend client
        let s1 := { s with
          clients := s.clients.set i { client with st := r.1 }
          log := s.log ++ [Call.client_check_and_resend client] }
        if r.2 = -2 then sweep_loop E fuel i (disconnect_and_remove_client client.id s1)
        else sweep_loop E fuel (i + 1) s1
    else .ok s

/-- Lines 197-202: `client_recv_tcp_data`, then `client_send_udp_data` on 0 or
`usleep` on 1, on the client at index `i`. Returns `ret` and the state. -/
def serve_client (E : Env) (i : Nat) (client : client_t) (s : Server) : Int × Server :=
  let r := E.client_recv_tcp_data client
  let c1 := { client with st := r.1 }
  let s1 := { s with
    clients := s.clients.set i c1
    log := s.log ++ [Call.client_recv_tcp_data client] }
  if r.2 = 0 then
    let r2 := E.client_send_udp_data c1
    (r2.2, { s1 with
      clients := s1.clients.set i { c1 with st := r2.1 }
      log := s1.log ++ [Call.client_send_udp_data c1] })
  else if r.2 = 1 then (r.2, { s1 with log := s1.log ++ [Call.usleep] })
  else (r.2, s1)

/-- The TCP service step, lines 191-212: the `for` loop from index `i` with `num_fds`
descriptors left to serve, against the snapshot `read_fds`. -/
def tcp_loop (E : Env) (read_fds : fd_set) : Nat → Nat → Nat → Server → Except Stop Server
  | 0, _, _, _ => .error .out_of_fuel
  | fuel + 1, i, num_fds, s =>
    if i < s.clients.length ∧ 0 < num_fds then
      match list_get_at s.clients i with
      | none => .error .null_client
      | some client =>
        if client_tcp_fd_isset client read_fds then
          let rs := serve_client E i client s
          if rs.1 = -2 then
            tcp_loop E read_fds fuel i (num_fds - 1)
              (disconnect_and_remove_client client.id rs.2)
          else tcp_loop E read_fds fuel (i + 1) (num_fds - 1) rs.2
        else tcp_loop E read_fds fuel (i + 1) num_fds s
    else .ok s

/-- What the outside world contributes to one iteration of `while(running)`. -/
structure Inputs where
  /-- The descriptor `SOCK_FD(udp_sock)`. -/
  udp_fd : Nat
  /-- The descriptors that `select` finds readable. -/
  ready : List Nat
  /-- The test `timercmp(&curr_time, &check_time, >)`. -/
  timer_due : Bool
  /-- The result of `msg_recv_msg` and the frame it stored. -/
  recv_ret : Int
  tmp_id : Nat
  tmp_type : msg_type
  data : List Nat
  udp_from : Nat

/-- The call `select(FD_SETSIZE, &read_fds, NULL, NULL, &timeout)`: the descriptors of
`read_fds` that are readable stay set. -/
def select (ready : List Nat) (read_fds : fd_set) : fd_set :=
  read_fds.filter (fun fd => decide (fd ∈ ready))

/-- The snapshot of lines 142-145: `read_fds = client_fds; FD_SET(udp); select`. -/
def snapshot (inp : Inputs) (s : Server) : fd_set :=
  select inp.ready (FD_SET inp.udp_fd s.client_fds)

/-- Lines 153-170: the sweep, when the timer is due. -/
def iter_sweep (E : Env) (inp : Inputs) (fuel : Nat) (s : Server) : Except Stop Server :=
  if inp.timer_due then sweep_loop E fuel 0 s else .ok s

/-- Lines 176-188: the UDP socket, when it is set in `read_fds`. Returns the state and
`num_fds`. -/
def iter_udp (E : Env) (inp : Inputs) (read_fds : fd_set) (num_fds : Nat) (s : Server) :
    Except Stop (Server × Nat) :=
  if FD_ISSET inp.udp_fd read_fds then
    match dispatch E inp.recv_ret inp.tmp_id inp.tmp_type inp.data inp.udp_from s with
    | .error e => .error e
    | .ok s1 => .ok (s1, num_fds - 1)
  else .ok (s, num_fds)

/-- One iteration of the `while(running)` loop, lines 138-212, for a `select` that
succeeded; `num_fds` is the number of descriptors `select` left set. -/
def main_iteration (E : Env) (inp : Inputs) (fuel : Nat) (s : Server) : Except Stop Server :=
  let read_fds := snapshot inp s
  let num_fds := read_fds.dedup.length
  match iter_sweep E inp fuel s with
  | .error e => .error e
  | .ok s1 =>
    if num_fds = 0 then .ok s1
    else
      match iter_udp E inp read_fds num_fds s1 with
      | .error e => .error e
      | .ok (s2, n2) => tcp_loop E read_fds fuel 0 n2 s2

/-- A run of the dispatcher alone: each frame is handled and a result of -2 removes
the client the frame names (lines 181-185). -/
def run_frames (E : Env) : List (Nat × msg_type × List Nat × Nat) → Server → Except Stop Server
  | [], s => .ok s
  | (id, ty, data, udp_from) :: rest, s =>
    match dispatch E 0 id ty data udp_from s with
    | .error e => .error e
    | .ok s1 => run_frames E rest s1

/-! ## A concrete environment -/

/-- A resolver that accepts every non-empty host with a non-empty port and hands out
descriptor 5, and client operations that fail on fixed protocol states. -/
def sampleEnv : Env where
  sock_create := fun host port => if host = [] ∨ port = [] then none else some ⟨5, 0⟩
  client_create := fun _ tcp_sock _ => some ⟨tcp_sock.fd, 0⟩
  list_add_ok := fun _ _ => true
  client_send_helloack := fun c => c.st
  client_got_helloack := fun c => c.st
  client_connect_tcp := fun c => (c.st, -1)
  client_got_udp_data := fun c _ _ => (c.st, 0)
  client_send_tcp_data := fun c => (c.st, 0)
  client_got_ack := fun c _ => c.st
  client_check_and_resend := fun c => (c.st, if c.st.proto = 7 then -2 else 0)
  client_recv_tcp_data := fun c => ({ c.st with proto := c.st.proto + 1 }, 0)
  client_send_udp_data := fun c => (c.st, 0)

/-- The client on which a logged call to `client_check_and_resend` was made. -/
def Call.checked : Call → Option client_t
  | .client_check_and_resend c => some c
  | _ => none

/-- What a sweep leaves of one client: nothing when `client_check_and_resend` returned -2,
else the client in the state the call left it in. -/
def sweep_keep (E : Env) (c : client_t) : Option client_t :=
  if (E.client_check_and_resend c).2 = -2 then none
  else some { c with st := (E.client_check_and_resend c).1 }

/-- The client on which a logged call to `client_recv_tcp_data` was made. -/
def Call.served : Call → Option client_t
  | .client_recv_tcp_data c => some c
  | _ => none

/-- The state `s1` comes from `s` by calls that were made only on clients satisfying `P`, as
far as `client_recv_tcp_data` is concerned. -/
def ServedOnly (P : client_t → Prop) (s s1 : Server) : Prop :=
  ∃ calls, s1.log = s.log ++ calls ∧ ∀ c ∈ calls.filterMap Call.served, P c

/-- The frame `{id=0, type=HELLO, payload="h 80"}` from address 77. -/
def helloFrame : Nat × msg_type × List Nat × Nat := (0, .HELLO, [104, 32, 56, 48], 77)

/-! ## The invariant of the ids -/

/-- How one call of `handle_message` may change the ids of the table and `next_client_id`:
not at all, or `next_client_id` alone goes up by one, or a client with the truncated
`next_client_id` is appended and `next_client_id` goes up by one. -/
def IdStep (s s1 : Server) : Prop :=
  (s1.clients.map (fun c => c.id) = s.clients.map (fun c => c.id) ∧
      (s1.next_client_id = s.next_client_id ∨ s1.next_client_id = s.next_client_id + 1)) ∨
    (s1.clients.map (fun c => c.id) =
        s.clients.map (fun c => c.id) ++ [s.next_client_id % 65536] ∧
      s1.next_client_id = s.next_client_id + 1)

/-- The table invariant: ids are pairwise distinct, non-zero and below `next_client_id`. -/
def IdInv (s : Server) : Prop :=
  (s.clients.map (fun c => c.id)).Nodup ∧
    ∀ x ∈ s.clients.map (fun c => c.id), 0 < x ∧ x < s.next_client_id

/-! ## Facts about the HELLO parser -/

theorem find_space_le (data : List Nat) : find_space data ≤ data.length := by
  induction data with
  | nil => simp [find_space]
  | cons b bs ih => simp only [find_space]; split <;> simp; omega

theorem find_space_lt_of_mem {data : List Nat} (h : 32 ∈ data) :
    find_space data < data.length := by
  induction data with
  | nil => simp at h
  | cons b bs ih =>
    simp only [find_space]
    split
    · simp
    · rename_i hb
      have : 32 ∈ bs := by
        rcases List.mem_cons.mp h with e | e
        · exact absurd e.symm hb
        · exact e
      have := ih this
      simp; omega

theorem find_space_append (host port : List Nat) (h : 32 ∉ host) :
    find_space (host ++ 32 :: port) = host.length := by
  induction host with
  | nil => simp [find_space]
  | cons b bs ih =>
    simp only [List.mem_cons, not_or] at h
    have hb : b ≠ 32 := fun e => h.1 e.symm
    simp [find_space, hb, ih h.2]

theorem c_str_append_zero (a b : List Nat) : c_str (a ++ 0 :: b) = c_str a := by
  induction a with
  | nil => simp [c_str]
  | cons x xs ih =>
    simp only [c_str, List.cons_append, List.takeWhile_cons]
    split
    · exact congrArg _ ih
    · rfl

theorem c_str_idem (a : List Nat) : c_str (c_str a) = c_str a := by
  unfold c_str
  exact List.takeWhile_idem

theorem c_str_strncpy (src : List Nat) :
    c_str (strncpy src src.length) = c_str src := by
  unfold strncpy
  rw [List.take_length]
  cases h : src.length - (c_str src).length with
  | zero => simp [c_str_idem]
  | succ k =>
    rw [List.replicate_succ, c_str_append_zero, c_str_idem]

theorem port_writes_find (n : Nat) :
    (port_writes n).find? (fun idx => decide (PORT_SIZE ≤ idx)) =
      if PORT_SIZE ≤ n then some 6 else none := by
  unfold port_writes PORT_SIZE
  split
  · rename_i h
    obtain ⟨k, rfl⟩ : ∃ k, n = 6 + k := ⟨n - 6, by omega⟩
    rw [List.range_add, List.append_assoc, List.find?_append]
    have h6 : (List.range 6).find? (fun idx => decide (6 ≤ idx)) = none := by decide
    rw [h6]
    cases k with
    | zero => simp
    | succ k => simp [List.range_succ_eq_map]
  · rename_i h
    rw [List.find?_eq_none]
    intro x hx
    simp only [List.mem_append, List.mem_range, List.mem_singleton] at hx
    simp only [decide_eq_true_eq]
    omega

theorem hello_parse_append (host port : List Nat) (h : 32 ∉ host) :
    hello_parse (host ++ 32 :: port) =
      if PORT_SIZE ≤ port.length then .overflow 6 else .parsed (c_str host) (c_str port) := by
  have hlen : (host ++ 32 :: port).length - (host.length + 1) = port.length := by
    simp; omega
  have hne : host.length ≠ (host ++ 32 :: port).length := by simp
  have hset : (host ++ 32 :: port).set host.length 0 = host ++ 0 :: port := by
    simp [List.set_append]
  have hdrop : (host ++ 0 :: port).drop (host.length + 1) = port := by
    simp [List.drop_append_eq_append_drop]
  simp only [hello_parse, find_space_append host port h, hne, if_false, hlen, hset, hdrop,
    port_writes_find]
  by_cases hc : PORT_SIZE ≤ port.length
  · simp only [hc, if_true]
  · simp only [hc, if_false, c_str_append_zero, c_str_strncpy]

/-! ## Facts about the client table -/

theorem list_store_ids (clients : List client_t) (id : Nat) (st : client_state) :
    (list_store clients id st).map (fun c => c.id) = clients.map (fun c => c.id) := by
  induction clients with
  | nil => rfl
  | cons c cs ih =>
    simp only [list_store]
    split
    · rfl
    · simp only [List.map_cons, ih]

theorem list_get_list_store (clients : List client_t) (id : Nat) (c : client_t)
    (st : client_state) (h : list_get clients id = some c) :
    list_get (list_store clients id st) id = some { c with st := st } := by
  induction clients with
  | nil => simp [list_get] at h
  | cons d ds ih =>
    simp only [list_get, List.find?_cons] at h ih ⊢
    simp only [list_store]
    cases hd : (d.id == id)
    · simp only [hd] at h
      simp only [Bool.false_eq_true, if_false, List.find?_cons, hd]
      exact ih h
    · simp only [hd, Option.some.injEq] at h
      subst h
      simp only [if_true, List.find?_cons, hd]

theorem list_get_eq_head_filter (clients : List client_t) (id : Nat) :
    list_get clients id = (clients.filter (fun c => c.id == id)).head? := by
  induction clients with
  | nil => rfl
  | cons c cs ih =>
    simp only [list_get, List.find?_cons, List.filter_cons] at ih ⊢
    cases h : (c.id == id)
    · simp
    · simp

theorem list_get_filter_ne (clients : List client_t) (id : Nat) :
    list_get (clients.filter (fun c => c.id != id)) id = none := by
  simp only [list_get, List.find?_eq_none, List.mem_filter]
  intro c hc
  simpa using hc.2

theorem list_delete_eq_filter (id : Nat) (c : client_t) :
    ∀ clients : List client_t, clients.filter (fun c1 => c1.id == id) = [c] →
      list_delete clients id = clients.filter (fun c1 => c1.id != id)
  | [], h => by simp at h
  | c1 :: cs, h => by
    simp only [list_delete, List.eraseP_cons, List.filter_cons] at h ⊢
    cases hc : (c1.id == id)
    · simp only [hc, Bool.false_eq_true, if_false, cond_false] at h ⊢
      have hne : (c1.id != id) = true := by simp [bne, hc]
      simp only [hne, if_true]
      exact congrArg _ (list_delete_eq_filter id c cs h)
    · simp only [hc, if_true, cond_true] at h ⊢
      have hne : (c1.id != id) = false := by simp [bne, hc]
      simp only [hne, Bool.false_eq_true, if_false]
      have hnil : cs.filter (fun c1 => c1.id == id) = [] := by
        have := congrArg List.tail h
        simpa using this
      rw [List.filter_eq_nil_iff] at hnil
      symm
      rw [List.filter_eq_self]
      intro a ha
      have := hnil a ha
      simpa [bne] using this

theorem handle_message_missing (E : Env) (id : Nat) (ty : msg_type) (data : List Nat)
    (udp_from : Nat) (s : Server) (hid : id ≠ 0) (hmiss : list_get s.clients id = none) :
    handle_message E id ty data udp_from s = .ok (-1, s) := by
  simp [handle_message, hid, hmiss]


/-! ## The dispatcher -/

/-- C1: a frame with a non-zero id that the table does not hold, of any type and payload, makes
`handle_message` return -1 with the whole state (table, `client_fds`, `next_client_id`, call
log) as it was, and the main loop's dispatch then removes nothing. -/
theorem handle_message_unknown_id (E : Env) (id : Nat) (ty : msg_type) (data : List Nat)
    (udp_from : Nat) (s : Server) (hid : id ≠ 0) (hmiss : list_get s.clients id = none) :
    handle_message E id ty data udp_from s = .ok (-1, s) ∧
      dispatch E 0 id ty data udp_from s = .ok s := by
  have h := handle_message_missing E id ty data udp_from s hid hmiss
  refine ⟨h, ?_⟩
  simp [dispatch, h]

theorem handle_message_unknown_id_witness :
    handle_message sampleEnv 9999 .DATA0 [120] 42 ⟨[⟨1, 7, ⟨5, 0⟩⟩], [5], 2, []⟩ =
        .ok (-1, ⟨[⟨1, 7, ⟨5, 0⟩⟩], [5], 2, []⟩) ∧
      dispatch sampleEnv 0 9999 .DATA0 [120] 42 ⟨[⟨1, 7, ⟨5, 0⟩⟩], [5], 2, []⟩ =
        .ok ⟨[⟨1, 7, ⟨5, 0⟩⟩], [5], 2, []⟩ :=
  handle_message_unknown_id sampleEnv 9999 .DATA0 [120] 42 ⟨[⟨1, 7, ⟨5, 0⟩⟩], [5], 2, []⟩
    (by decide) (by decide)

/-- C7: a frame with id 0 whose type is not HELLO makes `handle_message` return -2 with the
state, call log included, as it was; `disconnect_and_remove_client(0, ...)` changes nothing, so
the dispatch of the main loop leaves the table and `client_fds` unchanged. -/
theorem handle_message_zero_id_not_hello (E : Env) (ty : msg_type) (data : List Nat)
    (udp_from : Nat) (s : Server) (hty : ty ≠ msg_type.HELLO) :
    handle_message E 0 ty data udp_from s = .ok (-2, s) ∧
      disconnect_and_remove_client 0 s = s ∧
      dispatch E 0 0 ty data udp_from s = .ok s := by
  have h : handle_message E 0 ty data udp_from s = .ok (-2, s) := by
    simp [handle_message, hty]
  have h2 : disconnect_and_remove_client 0 s = s := by
    simp [disconnect_and_remove_client]
  refine ⟨h, h2, ?_⟩
  simp [dispatch, h, h2]

theorem handle_message_zero_id_not_hello_witness :
    handle_message sampleEnv 0 (.unknown 200) [1, 2] 42 ⟨[⟨1, 7, ⟨5, 0⟩⟩], [5], 2, []⟩ =
        .ok (-2, ⟨[⟨1, 7, ⟨5, 0⟩⟩], [5], 2, []⟩) ∧
      disconnect_and_remove_client 0 ⟨[⟨1, 7, ⟨5, 0⟩⟩], [5], 2, []⟩ =
        ⟨[⟨1, 7, ⟨5, 0⟩⟩], [5], 2, []⟩ ∧
      dispatch sampleEnv 0 0 (.unknown 200) [1, 2] 42 ⟨[⟨1, 7, ⟨5, 0⟩⟩], [5], 2, []⟩ =
        .ok ⟨[⟨1, 7, ⟨5, 0⟩⟩], [5], 2, []⟩ :=
  handle_message_zero_id_not_hello sampleEnv (.unknown 200) [1, 2] 42
    ⟨[⟨1, 7, ⟨5, 0⟩⟩], [5], 2, []⟩ (by decide)

/-- C6: a HELLO frame with id 0 whose payload has more than 5 bytes after its first space
makes the HELLO case write outside `char port[6]`: the first such write is at index 6 (by
`strncpy` when more than 6 bytes follow the space, by the terminator `port[data_len-i] = 0`
when exactly 6 do), before the resolver is called. -/
theorem handle_message_hello_port_overflow (E : Env) (host port : List Nat) (udp_from : Nat)
    (s : Server) (hsp : 32 ∉ host) (hlen : 5 < port.length) :
    handle_message E 0 .HELLO (host ++ 32 :: port) udp_from s = .error (.port_overflow 6) ∧
      port.length ∈ port_writes port.length ∧ PORT_SIZE ≤ port.length := by
  have hp : hello_parse (host ++ 32 :: port) = .overflow 6 := by
    rw [hello_parse_append host port hsp, if_pos (show PORT_SIZE ≤ port.length from hlen)]
  refine ⟨?_, by simp [port_writes], hlen⟩
  simp [handle_message, handle_hello, hp]

theorem handle_message_hello_port_overflow_witness :
    handle_message sampleEnv 0 .HELLO ([104] ++ 32 :: [49, 50, 51, 52, 53, 54]) 42 Server.init =
        .error (.port_overflow 6) ∧
      [49, 50, 51, 52, 53, 54].length ∈ port_writes [49, 50, 51, 52, 53, 54].length ∧
      PORT_SIZE ≤ [49, 50, 51, 52, 53, 54].length :=
  handle_message_hello_port_overflow sampleEnv [104] [49, 50, 51, 52, 53, 54] 42 Server.init
    (by decide) (by decide)

/-- C2 fails as stated: (1) for the payload `a\0b 80` the resolver receives the host `a`, the
string that ends at the first NUL, not the payload bytes `a\0b` before the first space;
(2) for the payload `h 123456` the port does not fit `char port[6]` and no client is created;
(3) with `next_client_id = 65536` the new client's 16-bit id is 0, not 65536. -/
theorem handle_message_hello_counterexample :
    (handle_message sampleEnv 0 .HELLO [97, 0, 98, 32, 56, 48] 77 Server.init =
        .ok (0, ⟨[⟨1, 77, ⟨5, 0⟩⟩], [], 2,
          [Call.sock_create [97] [56, 48], Call.client_create 1 ⟨5, 0⟩ 77,
            Call.client_send_helloack ⟨1, 77, ⟨5, 0⟩⟩]⟩) ∧
      [97, 0, 98, 32, 56, 48].take (find_space [97, 0, 98, 32, 56, 48]) = [97, 0, 98] ∧
      sampleEnv.sock_create [97, 0, 98] [56, 48] = some ⟨5, 0⟩) ∧
    (sampleEnv.sock_create [104] [49, 50, 51, 52, 53, 54] = some ⟨5, 0⟩ ∧
      handle_message sampleEnv 0 .HELLO [104, 32, 49, 50, 51, 52, 53, 54] 77 Server.init =
        .error (.port_overflow 6)) ∧
    handle_message sampleEnv 0 .HELLO [104, 32, 56, 48] 77 ⟨[], [], 65536, []⟩ =
      .ok (0, ⟨[⟨0, 77, ⟨5, 0⟩⟩], [], 65537,
        [Call.sock_create [104] [56, 48], Call.client_create 0 ⟨5, 0⟩ 77,
          Call.client_send_helloack ⟨0, 77, ⟨5, 0⟩⟩]⟩) := by
  refine ⟨⟨?_, ?_, ?_⟩, ⟨?_, ?_⟩, ?_⟩ <;> rfl

/-- C2, amended: for a HELLO frame with id 0 whose payload is `host ++ " " ++ port` with no
space in `host` and at most 5 bytes in `port`, and with `next_client_id` below 65536, when the
resolver accepts the strings that `host` and `port` hold up to their first NUL and
`client_create` and `list_add` succeed, `handle_message` calls the resolver with these two
strings, creates a client whose id is the current `next_client_id` and whose peer is the
frame's source, appends it to the table, calls `client_send_helloack` on it, adds one to
`next_client_id`, leaves `client_fds` alone and returns 0; the first `next_client_id` of a
server is 1. -/
theorem handle_message_hello_creates (E : Env) (host port : List Nat) (udp_from : Nat)
    (s : Server) (tcp_sock : socket_t) (st : client_state)
    (hsp : 32 ∉ host) (hlen : port.length ≤ 5) (hnid : s.next_client_id < 65536)
    (hres : E.sock_create (c_str host) (c_str port) = some tcp_sock)
    (hcreate : E.client_create s.next_client_id tcp_sock udp_from = some st)
    (hadd : E.list_add_ok s.clients ⟨s.next_client_id, udp_from, st⟩ = true) :
    handle_message E 0 .HELLO (host ++ 32 :: port) udp_from s =
        .ok (0,
          { clients := s.clients ++ [⟨s.next_client_id, udp_from,
              E.client_send_helloack ⟨s.next_client_id, udp_from, st⟩⟩]
            client_fds := s.client_fds
            next_client_id := s.next_client_id + 1
            log := s.log ++ [Call.sock_create (c_str host) (c_str port),
              Call.client_create s.next_client_id tcp_sock udp_from,
              Call.client_send_helloack ⟨s.next_client_id, udp_from, st⟩] }) ∧
      Server.init.next_client_id = 1 := by
  have hp : hello_parse (host ++ 32 :: port) = .parsed (c_str host) (c_str port) := by
    rw [hello_parse_append host port hsp, if_neg]
    simp only [PORT_SIZE]; omega
  have hmod : s.next_client_id % 65536 = s.next_client_id := Nat.mod_eq_of_lt hnid
  refine ⟨?_, rfl⟩
  simp [handle_message, handle_hello, hp, hres, client_create, hmod, hcreate, list_add, hadd]

theorem handle_message_hello_creates_witness :
    handle_message sampleEnv 0 .HELLO ([49, 50, 55, 46, 48, 46, 48, 46, 49] ++ 32 :: [57]) 77
        Server.init =
        .ok (0,
          { clients := Server.init.clients ++ [⟨Server.init.next_client_id, 77,
              sampleEnv.client_send_helloack ⟨Server.init.next_client_id, 77, ⟨5, 0⟩⟩⟩]
            client_fds := Server.init.client_fds
            next_client_id := Server.init.next_client_id + 1
            log := Server.init.log ++
              [Call.sock_create (c_str [49, 50, 55, 46, 48, 46, 48, 46, 49]) (c_str [57]),
              Call.client_create Server.init.next_client_id ⟨5, 0⟩ 77,
              Call.client_send_helloack ⟨Server.init.next_client_id, 77, ⟨5, 0⟩⟩] }) ∧
      Server.init.next_client_id = 1 :=
  handle_message_hello_creates sampleEnv [49, 50, 55, 46, 48, 46, 48, 46, 49] [57] 77
    Server.init ⟨5, 0⟩ ⟨5, 0⟩ (by decide) (by decide) (by decide) (by decide) (by decide)
    (by decide)

/-- C5 fails on the code: for a HELLOACK frame of a known client, `handle_message` returns 0
whatever `client_connect_tcp` returned, a failure included; the dispatch of the main loop
then removes nothing: the client stays in the table at its place, in the state the failed
connect left it in, and `client_add_tcp_fd_to_set` has been applied to it. -/
theorem handle_message_helloack_connect_failure (E : Env) (id : Nat) (data : List Nat)
    (udp_from : Nat) (s : Server) (c : client_t) (hid : id ≠ 0)
    (hget : list_get s.clients id = some c)
    (hfail : (E.client_connect_tcp { c with st := E.client_got_helloack c }).2 ≠ 0) :
    ∃ s1, handle_message E id .HELLOACK data udp_from s = .ok (0, s1) ∧
      dispatch E 0 id .HELLOACK data udp_from s = .ok s1 ∧
      s1.clients.map (fun c1 => c1.id) = s.clients.map (fun c1 => c1.id) ∧
      list_get s1.clients id = some
        { c with st := (E.client_connect_tcp { c with st := E.client_got_helloack c }).1 } ∧
      s1.client_fds = client_add_tcp_fd_to_set
        { c with st := (E.client_connect_tcp { c with st := E.client_got_helloack c }).1 }
        s.client_fds := by
  have _ := hfail
  have e : handle_message E id .HELLOACK data udp_from s = .ok (0,
      { s with
        clients := list_store s.clients id
          (E.client_connect_tcp { c with st := E.client_got_helloack c }).1
        client_fds := client_add_tcp_fd_to_set
          { c with st := (E.client_connect_tcp { c with st := E.client_got_helloack c }).1 }
          s.client_fds
        log := s.log ++ [Call.client_got_helloack c,
          Call.client_connect_tcp { c with st := E.client_got_helloack c }] }) := by
    simp [handle_message, hid, hget]
  exact ⟨_, e, by simp [dispatch, e], list_store_ids _ _ _,
    list_get_list_store s.clients id c _ hget, rfl⟩

theorem handle_message_helloack_connect_failure_witness :
    ∃ s1, handle_message sampleEnv 1 .HELLOACK [] 77 ⟨[⟨1, 77, ⟨5, 0⟩⟩], [], 2, []⟩ =
        .ok (0, s1) ∧
      dispatch sampleEnv 0 1 .HELLOACK [] 77 ⟨[⟨1, 77, ⟨5, 0⟩⟩], [], 2, []⟩ = .ok s1 ∧
      s1.clients.map (fun c1 => c1.id) =
        (⟨[⟨1, 77, ⟨5, 0⟩⟩], [], 2, []⟩ : Server).clients.map (fun c1 => c1.id) ∧
      list_get s1.clients 1 = some
        { (⟨1, 77, ⟨5, 0⟩⟩ : client_t) with
          st := (sampleEnv.client_connect_tcp
            { (⟨1, 77, ⟨5, 0⟩⟩ : client_t) with
              st := sampleEnv.client_got_helloack ⟨1, 77, ⟨5, 0⟩⟩ }).1 } ∧
      s1.client_fds = client_add_tcp_fd_to_set
        { (⟨1, 77, ⟨5, 0⟩⟩ : client_t) with
          st := (sampleEnv.client_connect_tcp
            { (⟨1, 77, ⟨5, 0⟩⟩ : client_t) with
              st := sampleEnv.client_got_helloack ⟨1, 77, ⟨5, 0⟩⟩ }).1 }
        (⟨[⟨1, 77, ⟨5, 0⟩⟩], [], 2, []⟩ : Server).client_fds :=
  handle_message_helloack_connect_failure sampleEnv 1 [] 77 ⟨[⟨1, 77, ⟨5, 0⟩⟩], [], 2, []⟩
    ⟨1, 77, ⟨5, 0⟩⟩ (by decide) (by decide) (by decide)

/-- While ids are non-zero and unique, GOODBYE tears the client down: for a GOODBYE frame
whose non-zero id is the id of exactly one client `c` of the table, `handle_message` returns
-2 without touching the state, and `disconnect_and_remove_client` then clears `c`'s TCP descriptor in `client_fds`, calls
`client_disconnect_tcp(c)` and deletes `c`, leaving the other clients in their order;
afterwards a frame with that id, of any type, is dropped with -1 and changes nothing. -/
theorem goodbye_removes_client (E : Env) (id : Nat) (data : List Nat) (udp_from : Nat)
    (s : Server) (c : client_t) (hid : id ≠ 0)
    (hone : s.clients.filter (fun c1 => c1.id == id) = [c]) :
    handle_message E id .GOODBYE data udp_from s = .ok (-2, s) ∧
      dispatch E 0 id .GOODBYE data udp_from s = .ok (disconnect_and_remove_client id s) ∧
      (disconnect_and_remove_client id s).clients =
        s.clients.filter (fun c1 => c1.id != id) ∧
      (disconnect_and_remove_client id s).client_fds = FD_CLR c.st.tcp_fd s.client_fds ∧
      c.st.tcp_fd ∉ (disconnect_and_remove_client id s).client_fds ∧
      (disconnect_and_remove_client id s).log = s.log ++ [Call.client_disconnect_tcp c] ∧
      (disconnect_and_remove_client id s).next_client_id = s.next_client_id ∧
      ∀ (ty : msg_type) (data2 : List Nat) (udp_from2 : Nat),
        handle_message E id ty data2 udp_from2 (disconnect_and_remove_client id s) =
          .ok (-1, disconnect_and_remove_client id s) := by
  have hget : list_get s.clients id = some c := by
    rw [list_get_eq_head_filter, hone]; rfl
  have e : handle_message E id .GOODBYE data udp_from s = .ok (-2, s) := by
    simp [handle_message, hid, hget]
  have hd : disconnect_and_remove_client id s =
      { s with
        client_fds := FD_CLR c.st.tcp_fd s.client_fds
        log := s.log ++ [Call.client_disconnect_tcp c]
        clients := s.clients.filter (fun c1 => c1.id != id) } := by
    simp [disconnect_and_remove_client, hid, hget, client_remove_tcp_fd_from_set,
      list_delete_eq_filter id c s.clients hone]
  refine ⟨e, by simp [dispatch, e], ?_, ?_, ?_, ?_, ?_, ?_⟩
  · rw [hd]
  · rw [hd]
  · rw [hd]; simp [FD_CLR]
  · rw [hd]
  · rw [hd]
  · intro ty data2 udp_from2
    apply handle_message_missing E id ty data2 udp_from2 _ hid
    rw [hd]
    exact list_get_filter_ne s.clients id

theorem goodbye_removes_client_witness :
    handle_message sampleEnv 1 .GOODBYE [] 77
        ⟨[⟨1, 77, ⟨5, 0⟩⟩, ⟨2, 78, ⟨6, 0⟩⟩], [5, 6], 3, []⟩ =
        .ok (-2, ⟨[⟨1, 77, ⟨5, 0⟩⟩, ⟨2, 78, ⟨6, 0⟩⟩], [5, 6], 3, []⟩) ∧
      dispatch sampleEnv 0 1 .GOODBYE [] 77
        ⟨[⟨1, 77, ⟨5, 0⟩⟩, ⟨2, 78, ⟨6, 0⟩⟩], [5, 6], 3, []⟩ =
        .ok (disconnect_and_remove_client 1
          ⟨[⟨1, 77, ⟨5, 0⟩⟩, ⟨2, 78, ⟨6, 0⟩⟩], [5, 6], 3, []⟩) ∧
      (disconnect_and_remove_client 1
        ⟨[⟨1, 77, ⟨5, 0⟩⟩, ⟨2, 78, ⟨6, 0⟩⟩], [5, 6], 3, []⟩).clients =
        (⟨[⟨1, 77, ⟨5, 0⟩⟩, ⟨2, 78, ⟨6, 0⟩⟩], [5, 6], 3, []⟩ : Server).clients.filter
          (fun c1 => c1.id != 1) ∧
      (disconnect_and_remove_client 1
        ⟨[⟨1, 77, ⟨5, 0⟩⟩, ⟨2, 78, ⟨6, 0⟩⟩], [5, 6], 3, []⟩).client_fds =
        FD_CLR (⟨1, 77, ⟨5, 0⟩⟩ : client_t).st.tcp_fd
          (⟨[⟨1, 77, ⟨5, 0⟩⟩, ⟨2, 78, ⟨6, 0⟩⟩], [5, 6], 3, []⟩ : Server).client_fds ∧
      (⟨1, 77, ⟨5, 0⟩⟩ : client_t).st.tcp_fd ∉ (disconnect_and_remove_client 1
        ⟨[⟨1, 77, ⟨5, 0⟩⟩, ⟨2, 78, ⟨6, 0⟩⟩], [5, 6], 3, []⟩).client_fds ∧
      (disconnect_and_remove_client 1
        ⟨[⟨1, 77, ⟨5, 0⟩⟩, ⟨2, 78, ⟨6, 0⟩⟩], [5, 6], 3, []⟩).log =
        (⟨[⟨1, 77, ⟨5, 0⟩⟩, ⟨2, 78, ⟨6, 0⟩⟩], [5, 6], 3, []⟩ : Server).log ++
          [Call.client_disconnect_tcp ⟨1, 77, ⟨5, 0⟩⟩] ∧
      (disconnect_and_remove_client 1
        ⟨[⟨1, 77, ⟨5, 0⟩⟩, ⟨2, 78, ⟨6, 0⟩⟩], [5, 6], 3, []⟩).next_client_id =
        (⟨[⟨1, 77, ⟨5, 0⟩⟩, ⟨2, 78, ⟨6, 0⟩⟩], [5, 6], 3, []⟩ : Server).next_client_id ∧
      ∀ (ty : msg_type) (data2 : List Nat) (udp_from2 : Nat),
        handle_message sampleEnv 1 ty data2 udp_from2 (disconnect_and_remove_client 1
          ⟨[⟨1, 77, ⟨5, 0⟩⟩, ⟨2, 78, ⟨6, 0⟩⟩], [5, 6], 3, []⟩) =
          .ok (-1, disconnect_and_remove_client 1
            ⟨[⟨1, 77, ⟨5, 0⟩⟩, ⟨2, 78, ⟨6, 0⟩⟩], [5, 6], 3, []⟩) :=
  goodbye_removes_client sampleEnv 1 [] 77
    ⟨[⟨1, 77, ⟨5, 0⟩⟩, ⟨2, 78, ⟨6, 0⟩⟩], [5, 6], 3, []⟩ ⟨1, 77, ⟨5, 0⟩⟩ (by decide) (by decide)

/-! ## The timer sweep -/

theorem list_get_at_append (done : List client_t) (c : client_t) (cs : List client_t) :
    list_get_at (done ++ c :: cs) done.length = some c := by
  induction done with
  | nil => rfl
  | cons d ds ih => simpa [list_get_at] using ih

theorem set_append_middle (done : List client_t) (c c1 : client_t) (cs : List client_t) :
    (done ++ c :: cs).set done.length c1 = done ++ c1 :: cs := by
  simp [List.set_append]

theorem list_get_append_of_fresh (done : List client_t) (c : client_t) (cs : List client_t)
    (h : ∀ d ∈ done, d.id ≠ c.id) : list_get (done ++ c :: cs) c.id = some c := by
  have hd : done.find? (fun x => x.id == c.id) = none := by
    rw [List.find?_eq_none]
    intro d hd
    simpa using h d hd
  simp [list_get, List.find?_append, hd]

theorem list_delete_append_of_fresh (done : List client_t) (c : client_t) (cs : List client_t)
    (h : ∀ d ∈ done, d.id ≠ c.id) : list_delete (done ++ c :: cs) c.id = done ++ cs := by
  unfold list_delete
  rw [List.eraseP_append_right]
  · simp
  · intro d hd
    simpa using h d hd

theorem sweep_loop_from (E : Env) (nid : Nat) :
    ∀ (rest done : List client_t) (fds : fd_set) (log : List Call) (fuel : Nat),
      rest.length < fuel →
      ((done ++ rest).map (fun c => c.id)).Nodup →
      (∀ c ∈ rest, c.id ≠ 0) →
      ∃ fds1 calls,
        sweep_loop E fuel done.length ⟨done ++ rest, fds, nid, log⟩ =
          .ok ⟨done ++ rest.filterMap (sweep_keep E), fds1, nid, log ++ calls⟩ ∧
        calls.filterMap Call.checked = rest
  | [], done, fds, log, fuel, hf, _, _ => by
    obtain ⟨f, rfl⟩ : ∃ f, fuel = f + 1 := ⟨fuel - 1, by omega⟩
    refine ⟨fds, [], ?_, rfl⟩
    simp [sweep_loop]
  | c :: cs, done, fds, log, fuel, hf, hnd, hnz => by
    obtain ⟨f, rfl⟩ : ∃ f, fuel = f + 1 := ⟨fuel - 1, by omega⟩
    have hf1 : cs.length < f := by simpa using hf
    have hlt : done.length < (done ++ c :: cs).length := by simp
    have hfresh : ∀ d ∈ done, d.id ≠ c.id := by
      intro d hd e
      rw [List.map_append, List.nodup_append] at hnd
      exact hnd.2.2 (List.mem_map.mpr ⟨d, hd, rfl⟩) (List.mem_map.mpr ⟨c, by simp, e.symm⟩)
    have hcz : c.id ≠ 0 := hnz c (by simp)
    have hnz1 : ∀ x ∈ cs, x.id ≠ 0 := fun x hx => hnz x (by simp [hx])
    by_cases hr : (E.client_check_and_resend c).2 = -2
    · have hnd1 : ((done ++ cs).map (fun c => c.id)).Nodup := by
        refine hnd.sublist ?_
        exact List.Sublist.map _ (List.Sublist.append_left (List.sublist_cons_self c cs) done)
      obtain ⟨fds1, calls, hrun, hcalls⟩ := sweep_loop_from E nid cs done
        (FD_CLR (E.client_check_and_resend c).1.tcp_fd fds)
        (log ++ [Call.client_check_and_resend c] ++
          [Call.client_disconnect_tcp { c with st := (E.client_check_and_resend c).1 }])
        f hf1 hnd1 hnz1
      refine ⟨fds1, Call.client_check_and_resend c ::
        Call.client_disconnect_tcp { c with st := (E.client_check_and_resend c).1 } :: calls,
        ?_, ?_⟩
      · have hget := list_get_append_of_fresh done
          { c with st := (E.client_check_and_resend c).1 } cs hfresh
        have hdel := list_delete_append_of_fresh done
          { c with st := (E.client_check_and_resend c).1 } cs hfresh
        simp only at hget hdel
        simp only [sweep_loop, hlt, if_true, list_get_at_append, hr, set_append_middle,
          disconnect_and_remove_client, hcz, if_false, hget, hdel,
          client_remove_tcp_fd_from_set]
        simp only [List.filterMap_cons, sweep_keep, hr, if_true]
        simpa [List.append_assoc] using hrun
      · simp [Call.checked, hcalls]
    · have hnd1 : (((done ++ [({ c with st := (E.client_check_and_resend c).1 } : client_t)])
          ++ cs).map (fun c => c.id)).Nodup := by
        simpa using hnd
      obtain ⟨fds1, calls, hrun, hcalls⟩ := sweep_loop_from E nid cs
        (done ++ [{ c with st := (E.client_check_and_resend c).1 }]) fds
        (log ++ [Call.client_check_and_resend c]) f hf1 hnd1 hnz1
      refine ⟨fds1, Call.client_check_and_resend c :: calls, ?_, ?_⟩
      · simp only [sweep_loop, hlt, if_true, list_get_at_append, hr, set_append_middle, if_false]
        simp only [List.filterMap_cons, sweep_keep, hr, if_false]
        simpa [List.append_assoc] using hrun
      · simp [Call.checked, hcalls]

/-- C9: on a table whose ids are pairwise distinct and non-zero the timer sweep finishes
(any fuel above the table's length is enough); `client_check_and_resend` has then been called
exactly once on each client that was in the table at the start, in table order; and the table
left holds exactly the clients whose call did not return -2, in their original order, each in
the state its call left it in. -/
theorem sweep_loop_spec (E : Env) (s : Server) (fuel : Nat)
    (hnd : (s.clients.map (fun c => c.id)).Nodup) (hnz : ∀ c ∈ s.clients, c.id ≠ 0)
    (hfuel : s.clients.length < fuel) :
    ∃ s1 calls, sweep_loop E fuel 0 s = .ok s1 ∧
      s1.log = s.log ++ calls ∧
      calls.filterMap Call.checked = s.clients ∧
      s1.clients = s.clients.filterMap (fun c =>
        if (E.client_check_and_resend c).2 = -2 then none
        else some { c with st := (E.client_check_and_resend c).1 }) ∧
      s1.next_client_id = s.next_client_id := by
  obtain ⟨fds1, calls, hrun, hcalls⟩ :=
    sweep_loop_from E s.next_client_id s.clients [] s.client_fds s.log fuel hfuel
      (by simpa using hnd) hnz
  refine ⟨_, calls, hrun, rfl, hcalls, ?_, rfl⟩
  simp only [List.nil_append]
  rfl

theorem sweep_loop_spec_witness :
    ∃ s1 calls, sweep_loop sampleEnv 4 0
        ⟨[⟨1, 70, ⟨5, 7⟩⟩, ⟨2, 71, ⟨6, 0⟩⟩, ⟨3, 72, ⟨7, 7⟩⟩], [5, 6, 7], 4, []⟩ = .ok s1 ∧
      s1.log = (⟨[⟨1, 70, ⟨5, 7⟩⟩, ⟨2, 71, ⟨6, 0⟩⟩, ⟨3, 72, ⟨7, 7⟩⟩], [5, 6, 7], 4, []⟩ :
        Server).log ++ calls ∧
      calls.filterMap Call.checked =
        (⟨[⟨1, 70, ⟨5, 7⟩⟩, ⟨2, 71, ⟨6, 0⟩⟩, ⟨3, 72, ⟨7, 7⟩⟩], [5, 6, 7], 4, []⟩ :
          Server).clients ∧
      s1.clients =
        (⟨[⟨1, 70, ⟨5, 7⟩⟩, ⟨2, 71, ⟨6, 0⟩⟩, ⟨3, 72, ⟨7, 7⟩⟩], [5, 6, 7], 4, []⟩ :
          Server).clients.filterMap (fun c =>
            if (sampleEnv.client_check_and_resend c).2 = -2 then none
            else some { c with st := (sampleEnv.client_check_and_resend c).1 }) ∧
      s1.next_client_id =
        (⟨[⟨1, 70, ⟨5, 7⟩⟩, ⟨2, 71, ⟨6, 0⟩⟩, ⟨3, 72, ⟨7, 7⟩⟩], [5, 6, 7], 4, []⟩ :
          Server).next_client_id :=
  sweep_loop_spec sampleEnv
    ⟨[⟨1, 70, ⟨5, 7⟩⟩, ⟨2, 71, ⟨6, 0⟩⟩, ⟨3, 72, ⟨7, 7⟩⟩], [5, 6, 7], 4, []⟩ 4
    (by decide) (by decide) (by decide)

/-! ## The TCP service step -/

theorem ServedOnly.refl (P : client_t → Prop) (s : Server) : ServedOnly P s s :=
  ⟨[], by simp, by simp⟩

theorem ServedOnly.trans {P : client_t → Prop} {s s1 s2 : Server}
    (h1 : ServedOnly P s s1) (h2 : ServedOnly P s1 s2) : ServedOnly P s s2 := by
  obtain ⟨c1, e1, p1⟩ := h1
  obtain ⟨c2, e2, p2⟩ := h2
  refine ⟨c1 ++ c2, by rw [e2, e1, List.append_assoc], ?_⟩
  intro c hc
  rw [List.filterMap_append, List.mem_append] at hc
  rcases hc with hc | hc
  · exact p1 c hc
  · exact p2 c hc

theorem ServedOnly.mono {P Q : client_t → Prop} {s s1 : Server} (hPQ : ∀ c, P c → Q c)
    (h : ServedOnly P s s1) : ServedOnly Q s s1 := by
  obtain ⟨c1, e1, p1⟩ := h
  exact ⟨c1, e1, fun c hc => hPQ c (p1 c hc)⟩

theorem disconnect_and_remove_client_served (id : Nat) (s : Server) :
    ServedOnly (fun _ => False) s (disconnect_and_remove_client id s) := by
  unfold disconnect_and_remove_client
  split
  · exact ServedOnly.refl _ _
  · split
    · exact ServedOnly.refl _ _
    · refine ⟨_, rfl, ?_⟩
      simp [Call.served]

theorem handle_hello_served (E : Env) (data : List Nat) (udp_from : Nat) (s s1 : Server)
    (ret : Int) (h : handle_hello E data udp_from s = .ok (ret, s1)) :
    ServedOnly (fun _ => False) s s1 := by
  unfold handle_hello at h
  repeat' first | split at h | (dsimp only at h; split at h)
  all_goals first
    | (cases h; done)
    | (cases h; exact ServedOnly.refl _ _)
    | (cases h; refine ⟨_, rfl, ?_⟩; simp [Call.served])
    | (cases h; refine ⟨_, List.append_assoc _ _ _, ?_⟩; simp [Call.served])
    | (cases h
       refine ⟨_, (List.append_assoc _ _ _).trans (List.append_assoc _ _ _), ?_⟩
       simp [Call.served])

theorem handle_message_served (E : Env) (id : Nat) (ty : msg_type) (data : List Nat)
    (udp_from : Nat) (s s1 : Server) (ret : Int)
    (h : handle_message E id ty data udp_from s = .ok (ret, s1)) :
    ServedOnly (fun _ => False) s s1 := by
  unfold handle_message at h
  repeat' first | split at h | (dsimp only at h; split at h)
  all_goals first
    | (cases h; done)
    | exact handle_hello_served E data udp_from s s1 ret h
    | (cases h; exact ServedOnly.refl _ _)
    | (cases h; refine ⟨_, rfl, ?_⟩; simp [Call.served])

theorem dispatch_served (E : Env) (recv_ret : Int) (id : Nat) (ty : msg_type)
    (data : List Nat) (udp_from : Nat) (s s1 : Server)
    (h : dispatch E recv_ret id ty data udp_from s = .ok s1) :
    ServedOnly (fun _ => False) s s1 := by
  unfold dispatch at h
  split at h
  · split at h
    · exact absurd h (by simp)
    · rename_i ret s2 hm
      have h2 := handle_message_served E id ty data udp_from s s2 ret hm
      split at h
      · cases h
        exact h2.trans (disconnect_and_remove_client_served id s2)
      · cases h
        exact h2
  · split at h
    · cases h
      exact disconnect_and_remove_client_served id s
    · cases h
      exact ServedOnly.refl _ _

theorem sweep_loop_served (E : Env) :
    ∀ (fuel i : Nat) (s s1 : Server), sweep_loop E fuel i s = .ok s1 →
      ServedOnly (fun _ => False) s s1
  | 0, _, _, _, h => by simp [sweep_loop] at h
  | fuel + 1, i, s, s1, h => by
    unfold sweep_loop at h
    split at h
    · split at h
      · exact absurd h (by simp)
      · rename_i client _
        have hstep : ServedOnly (fun _ => False) s
            { s with
              clients := s.clients.set i { client with st := (E.client_check_and_resend client).1 }
              log := s.log ++ [Call.client_check_and_resend client] } := by
          refine ⟨_, rfl, ?_⟩
          simp [Call.served]
        dsimp only at h
        split at h
        · exact (hstep.trans (disconnect_and_remove_client_served _ _)).trans
            (sweep_loop_served E fuel _ _ _ h)
        · exact hstep.trans (sweep_loop_served E fuel _ _ _ h)
    · cases h
      exact ServedOnly.refl _ _

theorem serve_client_served (E : Env) (read_fds : fd_set) (i : Nat) (client : client_t)
    (s : Server) (hset : client_tcp_fd_isset client read_fds = true) :
    ServedOnly (fun c => c.st.tcp_fd ∈ read_fds) s (serve_client E i client s).2 := by
  have hmem : client.st.tcp_fd ∈ read_fds := by
    simpa [client_tcp_fd_isset, FD_ISSET] using hset
  unfold serve_client
  dsimp only
  split
  · refine ⟨_, List.append_assoc _ _ _, ?_⟩
    simpa [Call.served] using hmem
  · split
    · refine ⟨_, List.append_assoc _ _ _, ?_⟩
      simpa [Call.served] using hmem
    · refine ⟨_, rfl, ?_⟩
      simpa [Call.served] using hmem

theorem tcp_loop_served (E : Env) (read_fds : fd_set) :
    ∀ (fuel i num_fds : Nat) (s s1 : Server), tcp_loop E read_fds fuel i num_fds s = .ok s1 →
      ServedOnly (fun c => c.st.tcp_fd ∈ read_fds) s s1
  | 0, _, _, _, _, h => by simp [tcp_loop] at h
  | fuel + 1, i, num_fds, s, s1, h => by
    unfold tcp_loop at h
    split at h
    · split at h
      · exact absurd h (by simp)
      · rename_i client _
        split at h
        · rename_i hset
          have hstep := serve_client_served E read_fds i client s hset
          dsimp only at h
          split at h
          · exact (hstep.trans ((disconnect_and_remove_client_served _ _).mono
              (fun _ hc => hc.elim))).trans (tcp_loop_served E read_fds fuel _ _ _ _ h)
          · exact hstep.trans (tcp_loop_served E read_fds fuel _ _ _ _ h)
        · exact tcp_loop_served E read_fds fuel _ _ _ _ h
    · cases h
      exact ServedOnly.refl _ _

theorem mem_snapshot (inp : Inputs) (s : Server) (fd : Nat) (h : fd ∈ snapshot inp s) :
    fd ∈ inp.ready ∧ (fd ∈ s.client_fds ∨ fd = inp.udp_fd) := by
  simp only [snapshot, select, List.mem_filter, decide_eq_true_eq] at h
  refine ⟨h.2, ?_⟩
  have h1 := h.1
  unfold FD_SET at h1
  split at h1
  · exact Or.inl h1
  · simpa using h1

/-- What the service step does guarantee: in an iteration of the main loop that completes,
every call to `client_recv_tcp_data` is made on a client whose TCP descriptor is set in the
iteration's `read_fds` snapshot, that is, a descriptor that `select` found readable and that
was in `client_fds` at the start of the iteration or is the UDP descriptor. -/
theorem main_iteration_serves_snapshot (E : Env) (inp : Inputs) (fuel : Nat) (s s1 : Server)
    (h : main_iteration E inp fuel s = .ok s1) :
    ∃ calls, s1.log = s.log ++ calls ∧
      ∀ c ∈ calls.filterMap Call.served,
        c.st.tcp_fd ∈ snapshot inp s ∧ c.st.tcp_fd ∈ inp.ready ∧
          (c.st.tcp_fd ∈ s.client_fds ∨ c.st.tcp_fd = inp.udp_fd) := by
  have key : ServedOnly (fun c => c.st.tcp_fd ∈ snapshot inp s) s s1 := by
    unfold main_iteration at h
    dsimp only at h
    split at h
    · exact absurd h (by simp)
    · rename_i sA hA
      have h1 : ServedOnly (fun _ => False) s sA := by
        unfold iter_sweep at hA
        split at hA
        · exact sweep_loop_served E fuel 0 s sA hA
        · cases hA
          exact ServedOnly.refl _ _
      have h1m := h1.mono (Q := fun c => c.st.tcp_fd ∈ snapshot inp s) (fun _ hc => hc.elim)
      split at h
      · cases h
        exact h1m
      · split at h
        · exact absurd h (by simp)
        · rename_i sB n2 hB
          have h2 : ServedOnly (fun _ => False) sA sB := by
            unfold iter_udp at hB
            split at hB
            · split at hB
              · exact absurd hB (by simp)
              · rename_i sC hC
                cases hB
                exact dispatch_served E _ _ _ _ _ sA sB hC
            · cases hB
              exact ServedOnly.refl _ _
          exact (h1m.trans (h2.mono (fun _ hc => hc.elim))).trans
            (tcp_loop_served E _ fuel 0 n2 sB s1 h)
  obtain ⟨calls, e, p⟩ := key
  exact ⟨calls, e, fun c hc => ⟨p c hc, mem_snapshot inp s _ (p c hc)⟩⟩

theorem main_iteration_serves_snapshot_witness :
    ∃ calls, (⟨[⟨1, 70, ⟨5, 1⟩⟩], [5], 2, [Call.client_recv_tcp_data ⟨1, 70, ⟨5, 0⟩⟩,
        Call.client_send_udp_data ⟨1, 70, ⟨5, 1⟩⟩]⟩ : Server).log =
        (⟨[⟨1, 70, ⟨5, 0⟩⟩], [5], 2, []⟩ : Server).log ++ calls ∧
      ∀ c ∈ calls.filterMap Call.served,
        c.st.tcp_fd ∈ snapshot ⟨3, [5], false, 0, 0, .HELLO, [], 0⟩
            ⟨[⟨1, 70, ⟨5, 0⟩⟩], [5], 2, []⟩ ∧
          c.st.tcp_fd ∈ (⟨3, [5], false, 0, 0, .HELLO, [], 0⟩ : Inputs).ready ∧
          (c.st.tcp_fd ∈ (⟨[⟨1, 70, ⟨5, 0⟩⟩], [5], 2, []⟩ : Server).client_fds ∨
            c.st.tcp_fd = (⟨3, [5], false, 0, 0, .HELLO, [], 0⟩ : Inputs).udp_fd) :=
  main_iteration_serves_snapshot sampleEnv ⟨3, [5], false, 0, 0, .HELLO, [], 0⟩ 10
    ⟨[⟨1, 70, ⟨5, 0⟩⟩], [5], 2, []⟩
    ⟨[⟨1, 70, ⟨5, 1⟩⟩], [5], 2, [Call.client_recv_tcp_data ⟨1, 70, ⟨5, 0⟩⟩,
      Call.client_send_udp_data ⟨1, 70, ⟨5, 1⟩⟩]⟩ rfl

theorem disconnect_and_remove_client_length (id : Nat) (s : Server) :
    (disconnect_and_remove_client id s).clients.length ≤ s.clients.length := by
  unfold disconnect_and_remove_client
  split
  · exact le_refl _
  · split
    · exact le_refl _
    · exact (List.eraseP_sublist _).length_le

theorem serve_client_length (E : Env) (i : Nat) (client : client_t) (s : Server) :
    (serve_client E i client s).2.clients.length = s.clients.length := by
  unfold serve_client
  dsimp only
  split
  · simp
  · split <;> simp

/-- The TCP service step always finishes: each pass through the loop body advances `i`,
shortens the table, or uses up one of the `num_fds` descriptors. -/
theorem tcp_loop_terminates (E : Env) (read_fds : fd_set) :
    ∀ (fuel i num_fds : Nat) (s : Server), (s.clients.length - i) + num_fds < fuel →
      ∃ s1, tcp_loop E read_fds fuel i num_fds s = .ok s1
  | 0, _, _, _, h => absurd h (Nat.not_lt_zero _)
  | fuel + 1, i, num_fds, s, h => by
    unfold tcp_loop
    split
    · rename_i hc
      obtain ⟨hi, hn⟩ := hc
      have hget : list_get_at s.clients i = some (s.clients.get ⟨i, hi⟩) := by
        simp [list_get_at, List.getElem?_eq_getElem hi]
      rw [hget]
      dsimp only
      split
      · split
        · apply tcp_loop_terminates E read_fds fuel
          have h1 := disconnect_and_remove_client_length (s.clients.get ⟨i, hi⟩).id
            (serve_client E i (s.clients.get ⟨i, hi⟩) s).2
          have h2 := serve_client_length E i (s.clients.get ⟨i, hi⟩) s
          omega
        · apply tcp_loop_terminates E read_fds fuel
          have h2 := serve_client_length E i (s.clients.get ⟨i, hi⟩) s
          omega
      · apply tcp_loop_terminates E read_fds fuel
        omega
    · exact ⟨s, rfl⟩

/-! ## Client ids -/

theorem dispatch_helloFrame (s : Server) :
    dispatch sampleEnv 0 0 .HELLO [104, 32, 56, 48] 77 s =
      .ok { clients := s.clients ++ [⟨s.next_client_id % 65536, 77, ⟨5, 0⟩⟩]
            client_fds := s.client_fds
            next_client_id := s.next_client_id + 1
            log := s.log ++ [Call.sock_create [104] [56, 48],
              Call.client_create (s.next_client_id % 65536) ⟨5, 0⟩ 77,
              Call.client_send_helloack ⟨s.next_client_id % 65536, 77, ⟨5, 0⟩⟩] } := by
  have hp : hello_parse [104, 32, 56, 48] = .parsed [104] [56, 48] := by decide
  simp [dispatch, handle_message, handle_hello, hp, sampleEnv, client_create, list_add]

theorem run_frames_hello (n : Nat) :
    ∀ s : Server, ∃ s1, run_frames sampleEnv (List.replicate n helloFrame) s = .ok s1 ∧
      s1.clients = s.clients ++
        (List.range n).map (fun k => ⟨(s.next_client_id + k) % 65536, 77, ⟨5, 0⟩⟩) ∧
      s1.next_client_id = s.next_client_id + n := by
  induction n with
  | zero => intro s; exact ⟨s, rfl, by simp, rfl⟩
  | succ n ih =>
    intro s
    obtain ⟨s1, hrun, hcl, hnid⟩ := ih
      { clients := s.clients ++ [⟨s.next_client_id % 65536, 77, ⟨5, 0⟩⟩]
        client_fds := s.client_fds
        next_client_id := s.next_client_id + 1
        log := s.log ++ [Call.sock_create [104] [56, 48],
          Call.client_create (s.next_client_id % 65536) ⟨5, 0⟩ 77,
          Call.client_send_helloack ⟨s.next_client_id % 65536, 77, ⟨5, 0⟩⟩] }
    dsimp only at hcl hnid
    refine ⟨s1, ?_, ?_, ?_⟩
    · rw [List.replicate_succ]
      simp only [helloFrame, run_frames, dispatch_helloFrame]
      exact hrun
    · rw [hcl, List.range_succ_eq_map]
      simp only [List.map_cons, List.map_map, List.append_assoc, List.singleton_append,
        Nat.add_zero]
      congr 2
      apply List.map_congr_left
      intro k _
      simp only [Function.comp, Nat.succ_eq_add_one]
      congr 2
      omega
    · rw [hnid]; omega

/-- C3 fails on the code: 65536 HELLO frames, each accepted, are handled from the initial
state without any error, and the client created by the last one has id 0, because
`next_client_id` has reached 65536 and is truncated to 16 bits. -/
theorem id_zero_after_wrap :
    ∃ s, run_frames sampleEnv (List.replicate 65536 helloFrame) Server.init = .ok s ∧
      s.next_client_id = 65537 ∧ ∃ c ∈ s.clients, c.id = 0 := by
  obtain ⟨s1, hrun, hcl, hnid⟩ := run_frames_hello 65536 Server.init
  refine ⟨s1, hrun, hnid, ⟨0, 77, ⟨5, 0⟩⟩, ?_, rfl⟩
  rw [hcl]
  apply List.mem_append_right
  rw [List.mem_map]
  exact ⟨65535, List.mem_range.mpr (by omega), by
    show (⟨(1 + 65535) % 65536, 77, ⟨5, 0⟩⟩ : client_t) = ⟨0, 77, ⟨5, 0⟩⟩
    rfl⟩

theorem list_get_map_range_last (g : Nat → Nat) (n id : Nat)
    (hfresh : ∀ k, k < n → g k ≠ id) (hlast : g n = id) :
    list_get ((List.range (n + 1)).map (fun k => (⟨g k, 77, ⟨5, 0⟩⟩ : client_t))) id =
      some ⟨id, 77, ⟨5, 0⟩⟩ := by
  rw [List.range_succ, List.map_append, List.map_singleton]
  have h := list_get_append_of_fresh
    ((List.range n).map (fun k => (⟨g k, 77, ⟨5, 0⟩⟩ : client_t))) ⟨g n, 77, ⟨5, 0⟩⟩ []
    (by
      intro d hd
      rw [List.mem_map] at hd
      obtain ⟨k, hk, rfl⟩ := hd
      rw [hlast]
      exact hfresh k (List.mem_range.mp hk))
  simp only [hlast] at h ⊢
  exact h

theorem range_succ_map (f : Nat → client_t) (n : Nat) :
    (List.range (n + 1)).map f = f 0 :: (List.range n).map (fun k => f (k + 1)) := by
  rw [List.range_succ_eq_map]
  simp [List.map_map, Function.comp]

theorem run_frames_hello_init (n : Nat) :
    ∃ s, run_frames sampleEnv (List.replicate n helloFrame) Server.init = .ok s ∧
      s.clients = (List.range n).map (fun k => (⟨(1 + k) % 65536, 77, ⟨5, 0⟩⟩ : client_t)) := by
  obtain ⟨s, hrun, hcl, _⟩ := run_frames_hello n Server.init
  refine ⟨s, hrun, ?_⟩
  rw [hcl]
  simp [Server.init]

theorem list_get_cons_self (c : client_t) (l : List client_t) :
    list_get (c :: l) c.id = some c := by
  simp [list_get]

theorem list_delete_cons_self (c : client_t) (l : List client_t) :
    list_delete (c :: l) c.id = l := by
  simp [list_delete]

/-- C4 fails on the code once `next_client_id` has wrapped. (1) After 65536 accepted HELLO
frames the table holds a client with id 0; a GOODBYE frame with id 0 makes `handle_message`
return -2, but `disconnect_and_remove_client(0, ...)` returns at once, so the dispatch of the
main loop leaves the client in the table, and every later non-HELLO frame with id 0 gets -2,
not -1. (2) After 65537 accepted HELLO frames two clients have id 1; the GOODBYE frame with
id 1 disconnects and removes the first, and the table still holds a client with id 1, so a
later DATA0 frame with id 1 is handled with result 0 instead of being dropped with -1. -/
theorem goodbye_after_wrap :
    (∃ s, run_frames sampleEnv (List.replicate 65536 helloFrame) Server.init = .ok s ∧
      list_get s.clients 0 = some ⟨0, 77, ⟨5, 0⟩⟩ ∧
      handle_message sampleEnv 0 .GOODBYE [] 77 s = .ok (-2, s) ∧
      dispatch sampleEnv 0 0 .GOODBYE [] 77 s = .ok s ∧
      ∀ ty, ty ≠ msg_type.HELLO → handle_message sampleEnv 0 ty [] 77 s = .ok (-2, s)) ∧
    (∃ s s1, run_frames sampleEnv (List.replicate 65537 helloFrame) Server.init = .ok s ∧
      list_get s.clients 1 = some ⟨1, 77, ⟨5, 0⟩⟩ ∧
      handle_message sampleEnv 1 .GOODBYE [] 77 s = .ok (-2, s) ∧
      dispatch sampleEnv 0 1 .GOODBYE [] 77 s = .ok s1 ∧
      s1.log = s.log ++ [Call.client_disconnect_tcp ⟨1, 77, ⟨5, 0⟩⟩] ∧
      list_get s1.clients 1 = some ⟨1, 77, ⟨5, 0⟩⟩ ∧
      ∃ s2, handle_message sampleEnv 1 .DATA0 [120] 77 s1 = .ok (0, s2)) := by
  constructor
  · obtain ⟨s, hrun, hcl⟩ := run_frames_hello_init 65536
    have hget : list_get s.clients 0 = some ⟨0, 77, ⟨5, 0⟩⟩ := by
      rw [hcl]
      exact list_get_map_range_last (fun k => (1 + k) % 65536) 65535 0
        (fun k hk => by dsimp only; omega) rfl
    have hm : ∀ ty, ty ≠ msg_type.HELLO →
        handle_message sampleEnv 0 ty [] 77 s = .ok (-2, s) := by
      intro ty hty
      simp [handle_message, hty]
    have hg := hm .GOODBYE (by decide)
    refine ⟨s, hrun, hget, hg, ?_, hm⟩
    simp [dispatch, hg, disconnect_and_remove_client]
  · obtain ⟨s, hrun, hcl⟩ := run_frames_hello_init 65537
    have hcl1 : s.clients = ⟨1, 77, ⟨5, 0⟩⟩ ::
        (List.range 65536).map (fun k => (⟨(1 + (k + 1)) % 65536, 77, ⟨5, 0⟩⟩ : client_t)) := by
      rw [hcl]
      exact range_succ_map (fun k => ⟨(1 + k) % 65536, 77, ⟨5, 0⟩⟩) 65536
    have hget : list_get s.clients 1 = some ⟨1, 77, ⟨5, 0⟩⟩ := by
      rw [hcl1]
      exact list_get_cons_self ⟨1, 77, ⟨5, 0⟩⟩ _
    have hg : handle_message sampleEnv 1 .GOODBYE [] 77 s = .ok (-2, s) := by
      simp [handle_message, hget]
    have hd : disconnect_and_remove_client 1 s =
        { s with
          client_fds := FD_CLR 5 s.client_fds
          log := s.log ++ [Call.client_disconnect_tcp ⟨1, 77, ⟨5, 0⟩⟩]
          clients := list_delete s.clients 1 } := by
      simp [disconnect_and_remove_client, hget, client_remove_tcp_fd_from_set]
    have hdel : list_delete s.clients 1 =
        (List.range 65536).map (fun k => (⟨(1 + (k + 1)) % 65536, 77, ⟨5, 0⟩⟩ : client_t)) := by
      rw [hcl1]
      exact list_delete_cons_self ⟨1, 77, ⟨5, 0⟩⟩ _
    have hget1 : list_get (disconnect_and_remove_client 1 s).clients 1 =
        some ⟨1, 77, ⟨5, 0⟩⟩ := by
      rw [hd]
      dsimp only
      rw [hdel]
      exact list_get_map_range_last (fun k => (1 + (k + 1)) % 65536) 65535 1
        (fun k hk => by dsimp only; omega) rfl
    refine ⟨s, disconnect_and_remove_client 1 s, hrun, hget, hg, by simp [dispatch, hg],
      ?_, hget1, ?_⟩
    · rw [hd]
    · simp [handle_message, hget1, sampleEnv]

theorem IdStep.same (s : Server) : IdStep s s := Or.inl ⟨rfl, Or.inl rfl⟩

theorem handle_hello_ids (E : Env) (data : List Nat) (udp_from : Nat) (s s1 : Server)
    (ret : Int) (h : handle_hello E data udp_from s = .ok (ret, s1)) : IdStep s s1 := by
  unfold handle_hello at h
  split at h
  · cases h; exact IdStep.same s
  · cases h
  · split at h
    · cases h; exact Or.inl ⟨rfl, Or.inl rfl⟩
    · dsimp only at h
      split at h
      · cases h; exact Or.inl ⟨rfl, Or.inl rfl⟩
      · rename_i c hc
        split at h
        · cases h; exact Or.inl ⟨rfl, Or.inr rfl⟩
        · rename_i clients c2 hadd
          cases h
          refine Or.inr ⟨?_, rfl⟩
          simp only [list_add] at hadd
          split at hadd
          · simp only [Option.some.injEq, Prod.mk.injEq] at hadd
            obtain ⟨rfl, rfl⟩ := hadd
            simp only [client_create, Option.map_eq_some'] at hc
            obtain ⟨st, _, rfl⟩ := hc
            simp [List.set_append]
          · exact absurd hadd (by simp)

theorem handle_message_ids (E : Env) (id : Nat) (ty : msg_type) (data : List Nat)
    (udp_from : Nat) (s s1 : Server) (ret : Int)
    (h : handle_message E id ty data udp_from s = .ok (ret, s1)) : IdStep s s1 := by
  unfold handle_message at h
  repeat' first | split at h | (dsimp only at h; split at h)
  all_goals first
    | (cases h; done)
    | exact handle_hello_ids E data udp_from s s1 ret h
    | (cases h; exact IdStep.same s)
    | (cases h; exact Or.inl ⟨list_store_ids _ _ _, Or.inl rfl⟩)

theorem disconnect_and_remove_client_ids (id : Nat) (s : Server) :
    ((disconnect_and_remove_client id s).clients.map (fun c => c.id)).Sublist
        (s.clients.map (fun c => c.id)) ∧
      (disconnect_and_remove_client id s).next_client_id = s.next_client_id := by
  unfold disconnect_and_remove_client
  split
  · exact ⟨List.Sublist.refl _, rfl⟩
  · split
    · exact ⟨List.Sublist.refl _, rfl⟩
    · exact ⟨List.Sublist.map _ (List.eraseP_sublist _), rfl⟩

theorem IdInv.of_sublist {s s1 : Server} (h : IdInv s)
    (hsub : (s1.clients.map (fun c => c.id)).Sublist (s.clients.map (fun c => c.id)))
    (hn : s.next_client_id ≤ s1.next_client_id) : IdInv s1 :=
  ⟨h.1.sublist hsub, fun x hx =>
    ⟨(h.2 x (hsub.subset hx)).1, lt_of_lt_of_le (h.2 x (hsub.subset hx)).2 hn⟩⟩

theorem IdInv.step {s s1 : Server} (h : IdInv s) (hpos : 0 < s.next_client_id)
    (hstep : IdStep s s1) (hn : s1.next_client_id ≤ 65536) :
    IdInv s1 ∧ s.next_client_id ≤ s1.next_client_id := by
  rcases hstep with ⟨hids, hnid⟩ | ⟨hids, hnid⟩
  · have hle : s.next_client_id ≤ s1.next_client_id := by omega
    exact ⟨h.of_sublist (by rw [hids]) hle, hle⟩
  · have hlt : s.next_client_id < 65536 := by omega
    have hmod : s.next_client_id % 65536 = s.next_client_id := Nat.mod_eq_of_lt hlt
    refine ⟨⟨?_, ?_⟩, by omega⟩
    · rw [hids, hmod, List.nodup_append]
      refine ⟨h.1, List.nodup_singleton _, ?_⟩
      intro x hx hx1
      rw [List.mem_singleton] at hx1
      have := (h.2 x hx).2
      omega
    · intro x hx
      rw [hids, hmod, List.mem_append, List.mem_singleton] at hx
      rcases hx with hx | hx
      · have := h.2 x hx
        omega
      · omega

theorem dispatch_ids (E : Env) (recv_ret : Int) (id : Nat) (ty : msg_type) (data : List Nat)
    (udp_from : Nat) (s s1 : Server) (h : dispatch E recv_ret id ty data udp_from s = .ok s1)
    (hinv : IdInv s) (hpos : 0 < s.next_client_id) (hn : s1.next_client_id ≤ 65536) :
    IdInv s1 ∧ s.next_client_id ≤ s1.next_client_id := by
  unfold dispatch at h
  split at h
  · split at h
    · exact absurd h (by simp)
    · rename_i ret s2 hm
      have hstep := handle_message_ids E id ty data udp_from s s2 ret hm
      split at h
      · cases h
        have hd := disconnect_and_remove_client_ids id s2
        have h2 := hinv.step hpos hstep (by rw [← hd.2]; exact hn)
        exact ⟨h2.1.of_sublist hd.1 (le_of_eq hd.2.symm), by rw [hd.2]; exact h2.2⟩
      · cases h
        exact hinv.step hpos hstep hn
  · split at h
    · cases h
      have hd := disconnect_and_remove_client_ids id s
      exact ⟨hinv.of_sublist hd.1 (le_of_eq hd.2.symm), le_of_eq hd.2.symm⟩
    · cases h
      exact ⟨hinv, le_refl _⟩

theorem dispatch_next_client_id_mono (E : Env) (recv_ret : Int) (id : Nat) (ty : msg_type)
    (data : List Nat) (udp_from : Nat) (s s1 : Server)
    (h : dispatch E recv_ret id ty data udp_from s = .ok s1) :
    s.next_client_id ≤ s1.next_client_id := by
  unfold dispatch at h
  split at h
  · split at h
    · exact absurd h (by simp)
    · rename_i ret s2 hm
      have hstep := handle_message_ids E id ty data udp_from s s2 ret hm
      have h2 : s.next_client_id ≤ s2.next_client_id := by
        rcases hstep with ⟨_, hnid⟩ | ⟨_, hnid⟩ <;> omega
      split at h
      · cases h
        rw [(disconnect_and_remove_client_ids id s2).2]
        exact h2
      · cases h
        exact h2
  · split at h
    · cases h
      rw [(disconnect_and_remove_client_ids id s).2]
    · cases h
      exact le_refl _

theorem run_frames_next_client_id_mono (E : Env) :
    ∀ (frames : List (Nat × msg_type × List Nat × Nat)) (s s1 : Server),
      run_frames E frames s = .ok s1 → s.next_client_id ≤ s1.next_client_id
  | [], s, s1, h => by
    simp only [run_frames, Except.ok.injEq] at h
    rw [h]
  | (id, ty, data, udp_from) :: rest, s, s1, h => by
    simp only [run_frames] at h
    split at h
    · exact absurd h (by simp)
    · rename_i s2 hd
      exact le_trans (dispatch_next_client_id_mono E 0 id ty data udp_from s s2 hd)
        (run_frames_next_client_id_mono E rest s2 s1 h)

theorem run_frames_ids (E : Env) :
    ∀ (frames : List (Nat × msg_type × List Nat × Nat)) (s s1 : Server),
      run_frames E frames s = .ok s1 → IdInv s → 0 < s.next_client_id →
      s1.next_client_id ≤ 65536 → IdInv s1
  | [], s, s1, h, hinv, _, _ => by
    simp only [run_frames, Except.ok.injEq] at h
    rw [← h]
    exact hinv
  | (id, ty, data, udp_from) :: rest, s, s1, h, hinv, hpos, hn => by
    simp only [run_frames] at h
    split at h
    · exact absurd h (by simp)
    · rename_i s2 hd
      have hmono := run_frames_next_client_id_mono E rest s2 s1 h
      have h2 := dispatch_ids E 0 id ty data udp_from s s2 hd hinv hpos (le_trans hmono hn)
      exact run_frames_ids E rest s2 s1 h h2.1 (lt_of_lt_of_le hpos h2.2) hn

/-- Until `next_client_id` passes 65536 the ids of the table are pairwise distinct and
non-zero, in every state reached from the initial one by handling frames. -/
theorem ids_distinct_before_wrap (E : Env) (frames : List (Nat × msg_type × List Nat × Nat))
    (s1 : Server) (h : run_frames E frames Server.init = .ok s1)
    (hn : s1.next_client_id ≤ 65536) :
    (s1.clients.map (fun c => c.id)).Nodup ∧ ∀ c ∈ s1.clients, c.id ≠ 0 := by
  have hinit : IdInv Server.init := ⟨by simp [Server.init], by simp [Server.init]⟩
  have hinv := run_frames_ids E frames Server.init s1 h hinit (by simp [Server.init]) hn
  refine ⟨hinv.1, fun c hc => ?_⟩
  have := (hinv.2 c.id (List.mem_map.mpr ⟨c, hc, rfl⟩)).1
  omega

end UdpTunnel
